import Mathlib

/- Shallow embedding of the trading bot's core (risk sizing, signal engine,
exit state machine, day-state bookkeeping, and the entry-evaluation loop),
with theorems checking the specification's claims against it.
Python floats are modelled as exact rationals; the Python builtin round at
4 decimal places is modelled as round-half-to-even; code that can raise is
modelled with an explicit result type. -/

-- Configuration constants, from src/bot/config.py.

def STOP_LOSS_PCT : ℚ := 7 / 1000

def RISK_PER_TRADE_PCT : ℚ := 75 / 10000

def MAX_POSITION_PCT : ℚ := 1 / 10

def TRAIL_TRIGGER_PCT : ℚ := 1 / 100

def TRAIL_OFFSET_PCT : ℚ := 12 / 1000

def PULLBACK_TOLERANCE_PCT : ℚ := 3 / 1000

def EMA_FAST : ℕ := 21

def EMA_SLOW : ℕ := 50

def MAX_TOTAL_EXPOSURE_PCT : ℚ := 1 / 2

def SYMBOL_COOLDOWN_MIN : ℕ := 60

-- Python round-half-to-even on rationals: the builtin round for floats
-- rounds to the nearest integer, ties to the even integer.

def rhe (q : ℚ) : ℤ :=
  if q - ⌊q⌋ < 1 / 2 then ⌊q⌋
  else if (1 : ℚ) / 2 < q - ⌊q⌋ then ⌊q⌋ + 1
  else if ⌊q⌋ % 2 = 0 then ⌊q⌋ else ⌊q⌋ + 1

-- Python round(x, 4), as used throughout src/bot/risk.py.
def round4 (x : ℚ) : ℚ := (rhe (x * 10000) : ℚ) / 10000

-- src/bot/risk.py

def calculate_stop_price (entry_price : ℚ) : ℚ :=
  round4 (entry_price * (1 - STOP_LOSS_PCT))

/-- Modelled from the spec: the specification asserts that the stop-price
function returns a not-applicable result (not a price) for entry ≤ 0.  The
source's calculate_stop_price has no such branch; this definition follows the
spec's words so the two can be compared. -/
def calculate_stop_price_spec (entry_price : ℚ) : Option ℚ :=
  if entry_price ≤ 0 then none
  else some (round4 (entry_price * (1 - STOP_LOSS_PCT)))

def calculate_position_size (account_equity entry_price : ℚ) (aggressive : Bool) : ℤ :=
  if account_equity ≤ 0 ∨ entry_price ≤ 0 then 0
  else
    let risk_pct := if aggressive then max RISK_PER_TRADE_PCT (1 / 100) else RISK_PER_TRADE_PCT
    let risk_capital := account_equity * risk_pct
    let stop_distance := entry_price * STOP_LOSS_PCT
    if stop_distance ≤ 0 then 0
    else
      let qty : ℤ := ⌊risk_capital / stop_distance⌋
      let position_value := (qty : ℚ) * entry_price
      let max_value := account_equity * MAX_POSITION_PCT
      let qty2 : ℤ :=
        if max_value < position_value ∧ 0 < entry_price then ⌊max_value / entry_price⌋ else qty
      max qty2 0

def trailing_stop_price (entry_price highest_price : ℚ) : Option ℚ :=
  if highest_price ≤ 0 ∨ entry_price ≤ 0 then none
  else if highest_price < entry_price * (1 + TRAIL_TRIGGER_PCT) then none
  else some (round4 (highest_price * (1 - TRAIL_OFFSET_PCT)))

-- Bars and exponential moving averages (pandas ewm with adjust=False:
-- seeded from the first value, smoothing factor 2/(span+1)).

structure Bar where
  time : ℚ
  low : ℚ
  high : ℚ
  close : ℚ
  deriving DecidableEq

def defaultBar : Bar := ⟨0, 0, 0, 0⟩

def alphaOf (span : ℕ) : ℚ := 2 / (span + 1)

def emaStep (alpha prev x : ℚ) : ℚ := alpha * x + (1 - alpha) * prev

def ewmLast (alpha : ℚ) : List ℚ → ℚ
  | [] => 0
  | x :: xs => xs.foldl (fun acc y => emaStep alpha acc y) x

def closesOf (bs : List Bar) : List ℚ := bs.map Bar.close

def ema21Last (bs : List Bar) : ℚ := ewmLast (alphaOf EMA_FAST) (closesOf bs)

def ema50Last (bs : List Bar) : ℚ := ewmLast (alphaOf EMA_SLOW) (closesOf bs)

-- src/bot/strategy.py check_entry_signal.  The previous row's ema values in
-- the enriched frame are the ewm of the series without its last element.

def check_entry_signal (bars : Option (List Bar)) (benchmark_perf : ℚ)
    (ret_day : Option ℚ) (vr : Option ℚ) : Bool × Option ℚ × String :=
  match bars with
  | none => (false, none, "No market data.")
  | some bs =>
    if bs.length < EMA_SLOW + 2 then (false, none, "Not enough candles for EMAs.")
    else
      let last := bs.getLastD defaultBar
      let prev := bs.dropLast.getLastD defaultBar
      if ema21Last bs ≤ ema50Last bs ∨ last.close ≤ ema50Last bs then
        (false, none, "Trend not strong enough.")
      else
        if ¬ ((|prev.low - ema21Last bs.dropLast| / ema21Last bs.dropLast ≤
                PULLBACK_TOLERANCE_PCT) ∧ prev.high < last.close) then
          (false, none, "No pullback + break confirmation.")
        else
          match vr with
          | none => (false, none, "Volume not above recent average.")
          | some v =>
            if v < 12 / 10 then (false, none, "Volume not above recent average.")
            else
              if ret_day.getD 0 ≤ benchmark_perf then
                (false, none, "Fails relative strength vs benchmark.")
              else
                (true, some last.close,
                  "Uptrend (21>50), pullback to 21, break above prior high, RS > benchmark, volume confirmed.")

-- src/bot/execution.py manage_open_position and its locals.  The broker
-- position and the latest-buy-fill lookup are inputs; int(float(x)) is
-- truncation toward zero.

structure Position where
  qty : ℚ
  avg_entry_price : ℚ
  deriving DecidableEq

def pyTrunc (q : ℚ) : ℤ := if q < 0 then ⌈q⌉ else ⌊q⌋

def listMaxD (d : ℚ) : List ℚ → ℚ
  | [] => d
  | x :: xs => xs.foldl max x

def anchorPrice (pos : Position) (filled_price : Option ℚ) : ℚ :=
  match filled_price with
  | none => pos.avg_entry_price
  | some p => if p = 0 then pos.avg_entry_price else p

def lastClose (bars : List Bar) : ℚ := (bars.getLastD defaultBar).close

def highestSinceEntry (bars : List Bar) (filled_at : Option ℚ) : ℚ :=
  let entry_time := match filled_at with
    | none => (bars.headD defaultBar).time
    | some t => t
  let recent := bars.filter (fun b => decide (entry_time ≤ b.time))
  let recent2 := if recent.isEmpty then bars else recent
  listMaxD 0 (recent2.map Bar.high)

-- Python: if trailing_price and last_price <= trailing_price (0.0 is falsy).
def truthyLe (tp : Option ℚ) (lp : ℚ) : Bool :=
  match tp with
  | none => false
  | some t => if t = 0 then false else decide (lp ≤ t)

def manage_open_position (position : Option Position) (bars : List Bar)
    (filled_price filled_at : Option ℚ) : Option (String × ℚ × ℚ × ℤ) :=
  match position with
  | none => none
  | some pos =>
    let last_price := lastClose bars
    let anchor := anchorPrice pos filled_price
    let stopP := calculate_stop_price anchor
    let trailP := trailing_stop_price anchor (highestSinceEntry bars filled_at)
    let q : ℤ := (pyTrunc pos.qty).natAbs
    if last_price ≤ stopP then some ("stop", anchor, last_price, q)
    else if truthyLe trailP last_price then some ("trail", anchor, last_price, q)
    else if ema21Last bars < ema50Last bars then some ("trend_flip", anchor, last_price, q)
    else none

-- src/bot/state.py.  Ledger values really written by the program are the
-- Python boolean True (record_symbol_trade) and a dict carrying last_loss_at
-- (update_metrics); timestamp strings are abstracted to their parse result.

inductive TsString where
  | unparsable
  | parsed (t : ℚ)
  deriving DecidableEq

inductive LedgerEntry where
  | flag (b : Bool)
  | record (last_loss_at : Option TsString)
  deriving DecidableEq

structure Metrics where
  total_trades : ℕ
  wins : ℕ
  losses : ℕ
  gross_profit : ℚ
  gross_loss : ℚ
  pnl_by_symbol : List (String × ℚ)
  max_equity : Option ℚ
  max_drawdown : ℚ
  deriving DecidableEq

def defaultMetrics : Metrics := ⟨0, 0, 0, 0, 0, [], none, 0⟩

structure DayState where
  trading_day : Option String
  start_equity : Option ℚ
  trades_executed : ℕ
  trading_halted : Bool
  traded_symbols : List (String × LedgerEntry)
  metrics : Metrics
  deriving DecidableEq

def defaultDayState : DayState := ⟨none, none, 0, false, [], defaultMetrics⟩

/-- Parse result of the persisted JSON: none models unreadable or unparsable
content; in a parsed object each top-level key is present or absent. -/
structure StoredState where
  trading_day : Option (Option String)
  start_equity : Option (Option ℚ)
  trades_executed : Option ℕ
  trading_halted : Option Bool
  traded_symbols : Option (List (String × LedgerEntry))
  metrics : Option Metrics
  deriving DecidableEq

-- BotState.load: start from the defaults, overwrite each key present in the
-- stored object; on any parse failure fall back to the defaults.
def loadState : Option StoredState → DayState
  | none => defaultDayState
  | some p =>
    { trading_day := p.trading_day.getD defaultDayState.trading_day
      start_equity := p.start_equity.getD defaultDayState.start_equity
      trades_executed := p.trades_executed.getD defaultDayState.trades_executed
      trading_halted := p.trading_halted.getD defaultDayState.trading_halted
      traded_symbols := p.traded_symbols.getD defaultDayState.traded_symbols
      metrics := p.metrics.getD defaultDayState.metrics }

def reset_for_day (s : DayState) (today : String) (start_eq : ℚ) : DayState :=
  if s.trading_day = some today then s
  else
    { trading_day := some today
      start_equity := some start_eq
      trades_executed := 0
      trading_halted := false
      traded_symbols := []
      metrics := defaultMetrics }

-- Python dict assignment and lookup on an association list.

def assocSet {α : Type} : List (String × α) → String → α → List (String × α)
  | [], k, v => [(k, v)]
  | (k2, v2) :: rest, k, v =>
    if k2 = k then (k, v) :: rest else (k2, v2) :: assocSet rest k v

def assocGet? {α : Type} : List (String × α) → String → Option α
  | [], _ => none
  | (k2, v2) :: rest, k => if k2 = k then some v2 else assocGet? rest k

def update_metrics (s : DayState) (symbol : String) (pnl_dollars _entryPx _exitPx now : ℚ) :
    DayState :=
  let m := s.metrics
  let m1 := { m with total_trades := m.total_trades + 1 }
  let m2 := if 0 ≤ pnl_dollars then
      { m1 with wins := m1.wins + 1, gross_profit := m1.gross_profit + pnl_dollars }
    else
      { m1 with losses := m1.losses + 1, gross_loss := m1.gross_loss + pnl_dollars }
  let newPnl := (assocGet? m2.pnl_by_symbol symbol).getD 0 + pnl_dollars
  let m3 := { m2 with pnl_by_symbol := assocSet m2.pnl_by_symbol symbol newPnl }
  let s1 := { s with metrics := m3 }
  let marker := LedgerEntry.record (some (TsString.parsed now))
  if pnl_dollars < 0 then
    { s1 with traded_symbols := assocSet s1.traded_symbols symbol marker }
  else s1

-- Python: if m["max_equity"]: the drawdown update is skipped when the peak
-- equity is 0.0 (falsy), not only when it is absent.
def update_drawdown (s : DayState) (equity : ℚ) : DayState :=
  let m := s.metrics
  let maxEq : ℚ := match m.max_equity with
    | none => equity
    | some me => if me < equity then equity else me
  let m1 := { m with max_equity := some maxEq }
  let m2 := if maxEq = 0 then m1
    else { m1 with max_drawdown := min m1.max_drawdown ((equity - maxEq) / maxEq) }
  { s with metrics := m2 }

inductive PyResult (α : Type) where
  | ok (a : α)
  | exn (msg : String)
  deriving DecidableEq

-- symbol_in_cooldown: "last_loss_at" not in True raises TypeError; an absent
-- entry, the boolean False, a dict lacking the key, or an unparsable
-- timestamp all return False; otherwise compare elapsed seconds strictly.
def symbol_in_cooldown (s : DayState) (now : ℚ) (symbol : String)
    (cooldown_minutes : ℕ) : PyResult Bool :=
  match assocGet? s.traded_symbols symbol with
  | none => PyResult.ok false
  | some (LedgerEntry.flag true) =>
    PyResult.exn ("TypeError: argument of type bool is not iterable")
  | some (LedgerEntry.flag false) => PyResult.ok false
  | some (LedgerEntry.record none) => PyResult.ok false
  | some (LedgerEntry.record (some TsString.unparsable)) => PyResult.ok false
  | some (LedgerEntry.record (some (TsString.parsed ts))) =>
    PyResult.ok (decide (now - ts < (cooldown_minutes : ℚ) * 60))

-- src/bot/main.py trading_loop, entry-evaluation section (lines 170-236).
-- Results of the external calls for one candidate are inputs; the local
-- variable qty of trading_loop is threaded explicitly, since Python reads it
-- at the exposure-cap check (line 214) but assigns it only later (line 219).

structure CandidateCtx where
  hasTraded : Bool
  holdsPosition : Bool
  inCooldown : Bool
  signal : Bool
  entryPx : Option ℚ
  dollarVolOk : Bool
  spreadOk : Bool
  openOrderExists : Bool
  exposure : ℚ
  deriving DecidableEq

def processCandidate (equity : ℚ) (qtyEnv : Option ℤ) (c : CandidateCtx) :
    PyResult (Option ℤ) :=
  if c.hasTraded then PyResult.ok qtyEnv
  else if c.holdsPosition then PyResult.ok qtyEnv
  else if c.inCooldown then PyResult.ok qtyEnv
  else if !c.signal then PyResult.ok qtyEnv
  else
    match c.entryPx with
    | none => PyResult.ok qtyEnv
    | some ep =>
      if !c.dollarVolOk then PyResult.ok qtyEnv
      else if !c.spreadOk then PyResult.ok qtyEnv
      else if c.openOrderExists then PyResult.ok qtyEnv
      else
        match qtyEnv with
        | none =>
          PyResult.exn ("UnboundLocalError: local variable qty referenced before assignment")
        | some q =>
          if equity * MAX_TOTAL_EXPOSURE_PCT < c.exposure + (q : ℚ) * ep then
            PyResult.ok qtyEnv
          else
            -- qty is (re)assigned here; every later path (zero size, order
            -- submitted, order failure caught) continues with it bound.
            PyResult.ok (some (calculate_position_size equity ep false))

def entriesLoop (equity : ℚ) : Option ℤ → List CandidateCtx → PyResult (Option ℤ)
  | env, [] => PyResult.ok env
  | env, c :: cs =>
    match processCandidate equity env c with
    | PyResult.ok env2 => entriesLoop equity env2 cs
    | PyResult.exn m => PyResult.exn m

-- Concrete inputs used by the witnesses.

def bW : Bar := ⟨0, 100, 201 / 2, 100⟩

def bL : Bar := ⟨0, 100, 101, 101⟩

def bsW : List Bar := List.replicate 51 bW ++ [bL]

def barsC3 : List Bar := [⟨0, 100, 100, 100⟩, ⟨1, 199 / 2, 199 / 2, 199 / 2⟩]

def dayStateSame : DayState := { defaultDayState with trading_day := some ("2025-01-02") }

def ledgerTrue : DayState :=
  { defaultDayState with traded_symbols := [("AAPL", LedgerEntry.flag true)] }

def ledgerLoss : DayState :=
  { defaultDayState with
      traded_symbols := [("TSLA", LedgerEntry.record (some (TsString.parsed 0)))] }

def ledgerNoTs : DayState :=
  { defaultDayState with traded_symbols := [("MSFT", LedgerEntry.record none)] }

def storedPartial : StoredState :=
  ⟨some (some ("2025-01-02")), none, some 3, none, none, none⟩

-- Rounding lemmas.

theorem floor_le_rhe (q : ℚ) : ⌊q⌋ ≤ rhe q := by
  unfold rhe; split_ifs <;> omega

theorem rhe_le_floor_add_one (q : ℚ) : rhe q ≤ ⌊q⌋ + 1 := by
  unfold rhe; split_ifs <;> omega

theorem rhe_le (q : ℚ) : (rhe q : ℚ) ≤ q + 1 / 2 := by
  have h0 : (⌊q⌋ : ℚ) ≤ q := Int.floor_le q
  unfold rhe
  split_ifs with h1 h2 h3
  · linarith
  · push_cast
    linarith
  · linarith
  · have h1' : ¬ (q - (⌊q⌋ : ℚ) < 1 / 2) := h1
    rw [not_lt] at h1'
    have h2' : ¬ ((1 : ℚ) / 2 < q - (⌊q⌋ : ℚ)) := h2
    rw [not_lt] at h2'
    push_cast
    linarith

theorem le_rhe (q : ℚ) : q - 1 / 2 ≤ (rhe q : ℚ) := by
  have h0 : (⌊q⌋ : ℚ) ≤ q := Int.floor_le q
  have h1 : q < (⌊q⌋ : ℚ) + 1 := Int.lt_floor_add_one q
  unfold rhe
  split_ifs with ha hb hc
  · linarith
  · push_cast; linarith
  · have ha' : ¬ (q - (⌊q⌋ : ℚ) < 1 / 2) := ha
    rw [not_lt] at ha'
    linarith
  · push_cast; linarith

theorem rhe_mono {a b : ℚ} (hab : a ≤ b) : rhe a ≤ rhe b := by
  rcases lt_or_le ⌊a⌋ ⌊b⌋ with h | h
  · calc rhe a ≤ ⌊a⌋ + 1 := rhe_le_floor_add_one a
      _ ≤ ⌊b⌋ := by omega
      _ ≤ rhe b := floor_le_rhe b
  · have hfl : ⌊a⌋ = ⌊b⌋ := le_antisymm (Int.floor_le_floor hab) h
    unfold rhe
    rw [hfl]
    split_ifs with h1 h2 h3 h4 h5 h6 h7 h8 h9 <;>
      first
        | omega
        | (exfalso; rw [not_lt] at *; linarith)

theorem round4_le (x : ℚ) : round4 x ≤ x + 1 / 20000 := by
  have h := rhe_le (x * 10000)
  unfold round4
  linarith

theorem le_round4 (x : ℚ) : x - 1 / 20000 ≤ round4 x := by
  have h := le_rhe (x * 10000)
  unfold round4
  linarith

theorem round4_mono {a b : ℚ} (h : a ≤ b) : round4 a ≤ round4 b := by
  have hm : rhe (a * 10000) ≤ rhe (b * 10000) :=
    rhe_mono (by linarith)
  unfold round4
  have hm' : ((rhe (a * 10000) : ℤ) : ℚ) ≤ ((rhe (b * 10000) : ℤ) : ℚ) :=
    Int.cast_le.mpr hm
  linarith

theorem round4_nonpos {x : ℚ} (h : x ≤ 0) : round4 x ≤ 0 := by
  have h1 : (rhe (x * 10000) : ℚ) ≤ x * 10000 + 1 / 2 := rhe_le (x * 10000)
  have h2 : rhe (x * 10000) ≤ 0 := by
    by_contra hc
    push_neg at hc
    have : (1 : ℚ) ≤ (rhe (x * 10000) : ℚ) := by exact_mod_cast hc
    nlinarith
  have h3 : ((rhe (x * 10000) : ℤ) : ℚ) ≤ 0 := by exact_mod_cast h2
  unfold round4
  linarith

-- Helpers for evaluating the rounding on concrete inputs.

theorem rhe_intCast (n : ℤ) : rhe (n : ℚ) = n := by
  unfold rhe
  rw [Int.floor_intCast]
  rw [if_pos (by norm_num)]

theorem rhe_eq_of_lt_half (q : ℚ) (n : ℤ) (h1 : (n : ℚ) ≤ q) (h2 : q < (n : ℚ) + 1 / 2) :
    rhe q = n := by
  have hf : ⌊q⌋ = n := Int.floor_eq_iff.mpr ⟨h1, by linarith⟩
  unfold rhe
  rw [hf, if_pos (by linarith)]

theorem rhe_eq_of_half_lt (q : ℚ) (n : ℤ) (h1 : (n : ℚ) + 1 / 2 < q) (h2 : q < (n : ℚ) + 1) :
    rhe q = n + 1 := by
  have hf : ⌊q⌋ = n := Int.floor_eq_iff.mpr ⟨by linarith, h2⟩
  unfold rhe
  rw [hf, if_neg (by linarith), if_pos (by linarith)]

theorem round4_eq_intCast_div (x : ℚ) (n : ℤ) (h : x * 10000 = (n : ℚ)) :
    round4 x = (n : ℚ) / 10000 := by
  unfold round4
  rw [h, rhe_intCast]

theorem pyTrunc_intCast (n : ℤ) : pyTrunc (n : ℚ) = n := by
  unfold pyTrunc
  split_ifs
  · rw [Int.ceil_intCast]
  · rw [Int.floor_intCast]

-- Helpers for evaluating ewm on concrete series.

theorem foldl_emaStep_const (a c : ℚ) (h : emaStep a c c = c) :
    ∀ l : List ℚ, (∀ x ∈ l, x = c) → l.foldl (fun acc y => emaStep a acc y) c = c
  | [], _ => rfl
  | x :: xs, hx => by
    have hxc : x = c := hx x (List.mem_cons_self x xs)
    rw [List.foldl_cons, hxc, h]
    exact foldl_emaStep_const a c h xs (fun y hy => hx y (List.mem_cons_of_mem x hy))

theorem ewmLast_const (a c : ℚ) (h : emaStep a c c = c) (l : List ℚ)
    (hx : ∀ x ∈ l, x = c) (hne : l ≠ []) : ewmLast a l = c := by
  cases l with
  | nil => exact absurd rfl hne
  | cons x xs =>
    have hxc : x = c := hx x (List.mem_cons_self x xs)
    unfold ewmLast
    rw [hxc]
    exact foldl_emaStep_const a c h xs (fun y hy => hx y (List.mem_cons_of_mem x hy))

theorem ewmLast_concat (a : ℚ) (l : List ℚ) (hne : l ≠ []) (y : ℚ) :
    ewmLast a (l ++ [y]) = emaStep a (ewmLast a l) y := by
  cases l with
  | nil => exact absurd rfl hne
  | cons x xs =>
    show List.foldl (fun acc z => emaStep a acc z) x (xs ++ [y]) =
      emaStep a (List.foldl (fun acc z => emaStep a acc z) x xs) y
    rw [List.foldl_append]
    rfl

/-- C1 (amended): calculate_position_size always returns an integer quantity
at least 0, the quantity times the entry price never exceeds
equity * MAX_POSITION_PCT whenever the equity is nonnegative, and the result
is 0 whenever equity ≤ 0, entry ≤ 0, or the stop distance
entry * STOP_LOSS_PCT is ≤ 0.  (The cap clause as originally stated fails for
negative equity, where the returned 0 exceeds the negative cap.) -/
theorem calculate_position_size_props (e p : ℚ) (ag : Bool) :
    0 ≤ calculate_position_size e p ag ∧
    (0 ≤ e → ((calculate_position_size e p ag : ℤ) : ℚ) * p ≤ e * MAX_POSITION_PCT) ∧
    ((e ≤ 0 ∨ p ≤ 0) → calculate_position_size e p ag = 0) ∧
    (p * STOP_LOSS_PCT ≤ 0 → calculate_position_size e p ag = 0) := by
  simp only [calculate_position_size]
  by_cases hep : e ≤ 0 ∨ p ≤ 0
  · rw [if_pos hep]
    refine ⟨le_refl 0, fun he => ?_, fun _ => rfl, fun _ => rfl⟩
    have hM : (0 : ℚ) ≤ e * MAX_POSITION_PCT :=
      mul_nonneg he (by norm_num [MAX_POSITION_PCT])
    push_cast
    linarith
  · rw [if_neg hep]
    push_neg at hep
    obtain ⟨he, hp⟩ := hep
    have hSL : (0 : ℚ) < STOP_LOSS_PCT := by norm_num [STOP_LOSS_PCT]
    have hsd : ¬ (p * STOP_LOSS_PCT ≤ 0) := not_le.mpr (mul_pos hp hSL)
    rw [if_neg hsd]
    have hno : ¬ (e ≤ 0 ∨ p ≤ 0) := not_or.mpr ⟨not_le.mpr he, not_le.mpr hp⟩
    set rp := if ag then max RISK_PER_TRADE_PCT (1 / 100) else RISK_PER_TRADE_PCT with hrp
    have hrp0 : 0 < rp := by
      rw [hrp]
      cases ag
      · simp only [Bool.false_eq_true, if_false]
        norm_num [RISK_PER_TRADE_PCT]
      · simp only [if_true]
        exact lt_max_iff.mpr (Or.inl (by norm_num [RISK_PER_TRADE_PCT]))
    set q1 : ℤ := ⌊e * rp / (p * STOP_LOSS_PCT)⌋ with hq1
    have hq1nn : 0 ≤ q1 := by
      rw [hq1]
      exact Int.floor_nonneg.mpr (div_nonneg (mul_nonneg he.le hrp0.le) (mul_pos hp hSL).le)
    by_cases hcap : e * MAX_POSITION_PCT < (q1 : ℚ) * p ∧ 0 < p
    · rw [if_pos hcap]
      set q2 : ℤ := ⌊e * MAX_POSITION_PCT / p⌋ with hq2
      have hMnn : (0 : ℚ) ≤ e * MAX_POSITION_PCT :=
        mul_nonneg he.le (by norm_num [MAX_POSITION_PCT])
      have hq2nn : 0 ≤ q2 := by
        rw [hq2]
        exact Int.floor_nonneg.mpr (div_nonneg hMnn hp.le)
      rw [max_eq_left hq2nn]
      refine ⟨hq2nn, fun _ => ?_, fun h => absurd h hno, fun h => absurd h hsd⟩
      have hfl : (q2 : ℚ) ≤ e * MAX_POSITION_PCT / p := by
        rw [hq2]
        exact Int.floor_le _
      exact (le_div_iff₀ hp).mp hfl
    · rw [if_neg hcap]
      rw [max_eq_left hq1nn]
      have hle : (q1 : ℚ) * p ≤ e * MAX_POSITION_PCT := by
        rcases not_and_or.mp hcap with h | h
        · exact le_of_not_lt h
        · exact absurd hp h
      exact ⟨hq1nn, fun _ => hle, fun h => absurd h hno, fun h => absurd h hsd⟩

/-- C1 witness: at equity 100000 and entry 50 (the spec scenario) the size is
nonnegative and respects the 10 percent cap. -/
theorem calculate_position_size_props_witness :
    0 ≤ calculate_position_size 100000 50 false ∧
    ((calculate_position_size 100000 50 false : ℤ) : ℚ) * 50 ≤ 100000 * MAX_POSITION_PCT :=
  ⟨(calculate_position_size_props 100000 50 false).1,
   (calculate_position_size_props 100000 50 false).2.1 (by norm_num)⟩

/-- C1 counterexample: at equity -100 and entry 10 the function returns 0, and
0 * 10 exceeds equity * MAX_POSITION_PCT = -10, so the unconditional cap in the
claim is false. -/
theorem calculate_position_size_cap_cex :
    calculate_position_size (-100) 10 false = 0 ∧
    ¬ (((calculate_position_size (-100) 10 false : ℤ) : ℚ) * 10 ≤
        (-100) * MAX_POSITION_PCT) := by
  have h0 : calculate_position_size (-100) 10 false = 0 := by
    unfold calculate_position_size
    rw [if_pos (Or.inl (by norm_num))]
  refine ⟨h0, ?_⟩
  rw [h0]
  norm_num [MAX_POSITION_PCT]

/-- C7 (amended): calculate_stop_price applies the rounded formula
entry * (1 - STOP_LOSS_PCT) to every entry; it has no special not-applicable
branch, so for entry ≤ 0 it returns a number ≤ 0 rather than the
not-applicable result the spec describes (the spec-modelled variant returns
none there and agrees with the code exactly on entries > 0). -/
theorem calculate_stop_price_props (e : ℚ) :
    |calculate_stop_price e - e * (1 - STOP_LOSS_PCT)| ≤ 1 / 20000 ∧
    (e ≤ 0 → calculate_stop_price e ≤ 0) ∧
    (0 < e → calculate_stop_price_spec e = some (calculate_stop_price e)) := by
  refine ⟨?_, fun h => ?_, fun h => ?_⟩
  · unfold calculate_stop_price
    have h1 := round4_le (e * (1 - STOP_LOSS_PCT))
    have h2 := le_round4 (e * (1 - STOP_LOSS_PCT))
    rw [abs_le]
    constructor <;> linarith
  · unfold calculate_stop_price
    apply round4_nonpos
    have hpos : (0 : ℚ) < 1 - STOP_LOSS_PCT := by norm_num [STOP_LOSS_PCT]
    exact mul_nonpos_iff.mpr (Or.inr ⟨h, hpos.le⟩)
  · unfold calculate_stop_price_spec calculate_stop_price
    rw [if_neg (not_le.mpr h)]

/-- C7 counterexample: at entry -100 the source function returns the number
-99.3 (the same rounded formula), while the spec says the result is
not applicable; the spec-modelled function returns none there. -/
theorem calculate_stop_price_na_cex :
    calculate_stop_price (-100) = -(993 / 10) ∧ calculate_stop_price_spec (-100) = none := by
  constructor
  · unfold calculate_stop_price
    rw [round4_eq_intCast_div (-100 * (1 - STOP_LOSS_PCT)) (-993000)
      (by push_cast; norm_num [STOP_LOSS_PCT])]
    push_cast
    norm_num
  · unfold calculate_stop_price_spec
    rw [if_pos (by norm_num)]

/-- C7 witness: the rounded stop for entry -5 is nonpositive, and at entry 100
the spec-modelled function agrees with the code. -/
theorem calculate_stop_price_props_witness :
    calculate_stop_price (-5) ≤ 0 ∧
    calculate_stop_price_spec 100 = some (calculate_stop_price 100) :=
  ⟨(calculate_stop_price_props (-5)).2.1 (by norm_num),
   (calculate_stop_price_props 100).2.2 (by norm_num)⟩

/-- C5 (amended): for entry > 0, trailing_stop_price is none for every high
below the activation threshold entry * (1 + TRAIL_TRIGGER_PCT); at or above it
the result is high * (1 - TRAIL_OFFSET_PCT) rounded to 4 decimals, which is
strictly below high whenever high * TRAIL_OFFSET_PCT is at least one rounding
unit (1/10000); and the returned value is non-decreasing in high.  (The
unconditional strictness of the claim fails for sub-cent highs, where the
4-decimal rounding can land on or above the high.) -/
theorem trailing_stop_price_props (e h : ℚ) (he : 0 < e) :
    (h < e * (1 + TRAIL_TRIGGER_PCT) → trailing_stop_price e h = none) ∧
    (e * (1 + TRAIL_TRIGGER_PCT) ≤ h →
      trailing_stop_price e h = some (round4 (h * (1 - TRAIL_OFFSET_PCT))) ∧
      (1 / 10000 ≤ h * TRAIL_OFFSET_PCT → round4 (h * (1 - TRAIL_OFFSET_PCT)) < h)) ∧
    (∀ b, h ≤ b → ∀ v w, trailing_stop_price e h = some v →
      trailing_stop_price e b = some w → v ≤ w) := by
  have hoff : (0 : ℚ) < 1 - TRAIL_OFFSET_PCT := by norm_num [TRAIL_OFFSET_PCT]
  refine ⟨fun hlt => ?_, fun hge => ?_, fun b hb v w hv hw => ?_⟩
  · unfold trailing_stop_price
    by_cases h0 : h ≤ 0 ∨ e ≤ 0
    · rw [if_pos h0]
    · rw [if_neg h0, if_pos hlt]
  · have hh0 : 0 < h := by
      have : 0 < e * (1 + TRAIL_TRIGGER_PCT) := by
        have : (0 : ℚ) < 1 + TRAIL_TRIGGER_PCT := by norm_num [TRAIL_TRIGGER_PCT]
        positivity
      linarith
    have hsome : trailing_stop_price e h = some (round4 (h * (1 - TRAIL_OFFSET_PCT))) := by
      unfold trailing_stop_price
      rw [if_neg (not_or.mpr ⟨not_le.mpr hh0, not_le.mpr he⟩), if_neg (not_lt.mpr hge)]
    refine ⟨hsome, fun hr => ?_⟩
    have h1 := round4_le (h * (1 - TRAIL_OFFSET_PCT))
    have h2 : h * (1 - TRAIL_OFFSET_PCT) = h - h * TRAIL_OFFSET_PCT := by ring
    linarith
  · unfold trailing_stop_price at hv hw
    by_cases a1 : h ≤ 0 ∨ e ≤ 0
    · rw [if_pos a1] at hv
      exact Option.noConfusion hv
    rw [if_neg a1] at hv
    by_cases a2 : h < e * (1 + TRAIL_TRIGGER_PCT)
    · rw [if_pos a2] at hv
      exact Option.noConfusion hv
    rw [if_neg a2] at hv
    by_cases b1 : b ≤ 0 ∨ e ≤ 0
    · rw [if_pos b1] at hw
      exact Option.noConfusion hw
    rw [if_neg b1] at hw
    by_cases b2 : b < e * (1 + TRAIL_TRIGGER_PCT)
    · rw [if_pos b2] at hw
      exact Option.noConfusion hw
    rw [if_neg b2] at hw
    have hv' : round4 (h * (1 - TRAIL_OFFSET_PCT)) = v := Option.some.inj hv
    have hw' : round4 (b * (1 - TRAIL_OFFSET_PCT)) = w := Option.some.inj hw
    rw [← hv', ← hw']
    exact round4_mono (mul_le_mul_of_nonneg_right hb hoff.le)

/-- C5 witness: at entry 100 (spec scenario) the trail is inactive at high
100.5 and active at high 101.5 with a rounded value strictly below the high. -/
theorem trailing_stop_price_props_witness :
    trailing_stop_price 100 (201 / 2) = none ∧
    trailing_stop_price 100 (203 / 2) = some (round4 ((203 / 2) * (1 - TRAIL_OFFSET_PCT))) ∧
    round4 ((203 / 2) * (1 - TRAIL_OFFSET_PCT)) < 203 / 2 :=
  ⟨(trailing_stop_price_props 100 (201 / 2) (by norm_num)).1
    (by norm_num [TRAIL_TRIGGER_PCT]),
   ((trailing_stop_price_props 100 (203 / 2) (by norm_num)).2.1
    (by norm_num [TRAIL_TRIGGER_PCT])).1,
   ((trailing_stop_price_props 100 (203 / 2) (by norm_num)).2.1
    (by norm_num [TRAIL_TRIGGER_PCT])).2 (by norm_num [TRAIL_OFFSET_PCT])⟩

/-- C5 counterexample: entry 0.00096, high 0.00097 is above the activation
threshold, but the 4-decimal rounding lifts the trailing value to 0.001, which
is not strictly less than the high, so the claim's strict bound is false. -/
theorem trailing_stop_price_lt_cex :
    trailing_stop_price (96 / 100000) (97 / 100000) = some (1 / 1000) ∧
    ¬ ((1 : ℚ) / 1000 < 97 / 100000) := by
  constructor
  · unfold trailing_stop_price
    rw [if_neg (by norm_num), if_neg (by norm_num [TRAIL_TRIGGER_PCT])]
    have hv : round4 ((97 / 100000) * (1 - TRAIL_OFFSET_PCT)) = 1 / 1000 := by
      unfold round4
      rw [show ((97 / 100000 : ℚ) * (1 - TRAIL_OFFSET_PCT)) * 10000 = 95836 / 10000 by
        norm_num [TRAIL_OFFSET_PCT]]
      rw [rhe_eq_of_half_lt (95836 / 10000) 9 (by norm_num) (by norm_num)]
      norm_num
    rw [hv]
  · norm_num


-- Per-step drawdown helper shared by the day-state theorems.

theorem update_drawdown_le (s : DayState) (e : ℚ) :
    (update_drawdown s e).metrics.max_drawdown ≤ s.metrics.max_drawdown := by
  unfold update_drawdown
  dsimp only
  split_ifs with h
  · exact le_refl _
  · exact min_le_left _ _

theorem foldl_update_drawdown_nonpos :
    ∀ (es : List ℚ) (s : DayState), s.metrics.max_drawdown ≤ 0 →
      (es.foldl update_drawdown s).metrics.max_drawdown ≤ 0
  | [], _, h => h
  | e :: es, s, h =>
    foldl_update_drawdown_nonpos es (update_drawdown s e)
      (le_trans (update_drawdown_le s e) h)

/-- C4: each update_drawdown call can only lower the stored max_drawdown (so
within a day it is monotonically non-increasing and, starting from the zeroed
value, always ≤ 0), and reset_for_day resets the metrics (max_drawdown back to
0) exactly when the stored trading day differs from the given day; a call with
the stored day leaves the state unchanged. -/
theorem update_drawdown_reset_props (s : DayState) (e : ℚ) (today : String) (se : ℚ) :
    (update_drawdown s e).metrics.max_drawdown ≤ s.metrics.max_drawdown ∧
    (s.metrics.max_drawdown ≤ 0 → (update_drawdown s e).metrics.max_drawdown ≤ 0) ∧
    (∀ es : List ℚ, s.metrics.max_drawdown ≤ 0 →
      (es.foldl update_drawdown s).metrics.max_drawdown ≤ 0) ∧
    (s.trading_day = some today → reset_for_day s today se = s) ∧
    (s.trading_day ≠ some today →
      (reset_for_day s today se).metrics.max_drawdown = 0 ∧
      (reset_for_day s today se).trading_day = some today) := by
  refine ⟨update_drawdown_le s e,
    fun h => le_trans (update_drawdown_le s e) h,
    fun es h => foldl_update_drawdown_nonpos es s h,
    fun h => ?_, fun h => ?_⟩
  · unfold reset_for_day
    rw [if_pos h]
  · unfold reset_for_day
    rw [if_neg h]
    exact ⟨rfl, rfl⟩

/-- C4 witness: a drawdown update on the default state stays ≤ 0; resetting on
the stored day is the identity; resetting on a different day zeroes the
drawdown and installs the new day. -/
theorem update_drawdown_reset_props_witness :
    (update_drawdown defaultDayState 100).metrics.max_drawdown ≤ 0 ∧
    reset_for_day dayStateSame "2025-01-02" 100 = dayStateSame ∧
    (reset_for_day defaultDayState "2025-01-02" 100).metrics.max_drawdown = 0 ∧
    (reset_for_day defaultDayState "2025-01-02" 100).trading_day = some ("2025-01-02") := by
  refine ⟨(update_drawdown_reset_props defaultDayState 100 "2025-01-02" 100).2.1 ?_,
    (update_drawdown_reset_props dayStateSame 100 "2025-01-02" 100).2.2.2.1 rfl,
    ((update_drawdown_reset_props defaultDayState 100 "2025-01-02" 100).2.2.2.2 ?_).1,
    ((update_drawdown_reset_props defaultDayState 100 "2025-01-02" 100).2.2.2.2 ?_).2⟩
  · exact le_refl 0
  · simp [defaultDayState]
  · simp [defaultDayState]

/-- C8: loading persisted state never fails: unparsable or unreadable content
yields the default day state (day unset, not halted, zeroed metrics), and for
parsable content each missing top-level key keeps its default while each
present key takes the stored value. -/
theorem loadState_props (p : StoredState) :
    loadState none = defaultDayState ∧
    (p.trading_day = none → (loadState (some p)).trading_day = none) ∧
    (∀ v, p.trading_day = some v → (loadState (some p)).trading_day = v) ∧
    (p.start_equity = none → (loadState (some p)).start_equity = none) ∧
    (∀ v, p.start_equity = some v → (loadState (some p)).start_equity = v) ∧
    (p.trades_executed = none → (loadState (some p)).trades_executed = 0) ∧
    (∀ v, p.trades_executed = some v → (loadState (some p)).trades_executed = v) ∧
    (p.trading_halted = none → (loadState (some p)).trading_halted = false) ∧
    (∀ v, p.trading_halted = some v → (loadState (some p)).trading_halted = v) ∧
    (p.traded_symbols = none → (loadState (some p)).traded_symbols = []) ∧
    (∀ v, p.traded_symbols = some v → (loadState (some p)).traded_symbols = v) ∧
    (p.metrics = none → (loadState (some p)).metrics = defaultMetrics) ∧
    (∀ v, p.metrics = some v → (loadState (some p)).metrics = v) := by
  refine ⟨rfl, fun h => ?_, fun v h => ?_, fun h => ?_, fun v h => ?_, fun h => ?_,
    fun v h => ?_, fun h => ?_, fun v h => ?_, fun h => ?_, fun v h => ?_, fun h => ?_,
    fun v h => ?_⟩ <;>
  simp [loadState, h, defaultDayState, defaultMetrics]

/-- C8 witness: a stored object with only the trading day and the trade count
present keeps defaults for the missing keys and stored values for the present
ones. -/
theorem loadState_props_witness :
    (loadState (some storedPartial)).trading_day = some ("2025-01-02") ∧
    (loadState (some storedPartial)).trades_executed = 3 ∧
    (loadState (some storedPartial)).start_equity = none ∧
    (loadState (some storedPartial)).trading_halted = false :=
  ⟨(loadState_props storedPartial).2.2.1 (some ("2025-01-02")) rfl,
   (loadState_props storedPartial).2.2.2.2.2.2.1 3 rfl,
   (loadState_props storedPartial).2.2.2.1 rfl,
   (loadState_props storedPartial).2.2.2.2.2.2.2.1 rfl⟩

/-- C10: update_metrics classifies a zero pnl as a win (wins incremented,
losses, gross_loss and gross_profit unchanged), and writes a cooldown
loss-timestamp marker into the ledger exactly for strictly negative pnl. -/
theorem update_metrics_zero_props (s : DayState) (sym : String) (a b now : ℚ) :
    (update_metrics s sym 0 a b now).metrics.wins = s.metrics.wins + 1 ∧
    (update_metrics s sym 0 a b now).metrics.losses = s.metrics.losses ∧
    (update_metrics s sym 0 a b now).metrics.gross_loss = s.metrics.gross_loss ∧
    (update_metrics s sym 0 a b now).metrics.gross_profit = s.metrics.gross_profit ∧
    (update_metrics s sym 0 a b now).traded_symbols = s.traded_symbols ∧
    (∀ pnl : ℚ, 0 ≤ pnl → (update_metrics s sym pnl a b now).traded_symbols = s.traded_symbols) ∧
    (∀ pnl : ℚ, pnl < 0 → (update_metrics s sym pnl a b now).traded_symbols =
      assocSet s.traded_symbols sym (LedgerEntry.record (some (TsString.parsed now)))) := by
  refine ⟨?_, ?_, ?_, ?_, ?_, fun pnl hp => ?_, fun pnl hp => ?_⟩
  · simp [update_metrics]
  · simp [update_metrics]
  · simp [update_metrics]
  · simp [update_metrics]
  · simp [update_metrics]
  · have h1 : ¬ (pnl < 0) := not_lt.mpr hp
    simp [update_metrics, h1]
  · simp [update_metrics, hp]

/-- C10 witness: a zero-pnl trade on the default state increments wins and
leaves the ledger untouched; a losing trade writes the cooldown marker. -/
theorem update_metrics_zero_props_witness :
    (update_metrics defaultDayState "AAPL" 0 100 100 0).metrics.wins =
      defaultDayState.metrics.wins + 1 ∧
    (update_metrics defaultDayState "AAPL" 0 100 100 0).traded_symbols =
      defaultDayState.traded_symbols ∧
    (update_metrics defaultDayState "AAPL" (-5) 100 99 0).traded_symbols =
      assocSet defaultDayState.traded_symbols "AAPL"
        (LedgerEntry.record (some (TsString.parsed 0))) :=
  ⟨(update_metrics_zero_props defaultDayState "AAPL" 100 100 0).1,
   (update_metrics_zero_props defaultDayState "AAPL" 100 100 0).2.2.2.2.1,
   (update_metrics_zero_props defaultDayState "AAPL" 100 99 0).2.2.2.2.2.2 (-5)
     (by norm_num)⟩

/-- C9 (amended): symbol_in_cooldown returns true iff the ledger holds a
parsable loss timestamp for the symbol with strictly less than the given
minutes elapsed; it returns false when no entry exists, or the dict entry has
no parsable timestamp, or at least the given minutes have elapsed; but when
the entry is the boolean True marker written by record_symbol_trade it raises
TypeError instead of returning false as the claim states. -/
theorem symbol_in_cooldown_props (s : DayState) (now : ℚ) (sym : String) (m : ℕ) :
    (symbol_in_cooldown s now sym m = PyResult.ok true ↔
      ∃ t, assocGet? s.traded_symbols sym =
          some (LedgerEntry.record (some (TsString.parsed t))) ∧
        now - t < (m : ℚ) * 60) ∧
    (assocGet? s.traded_symbols sym = none →
      symbol_in_cooldown s now sym m = PyResult.ok false) ∧
    (∀ t, assocGet? s.traded_symbols sym =
        some (LedgerEntry.record (some (TsString.parsed t))) →
      (m : ℚ) * 60 ≤ now - t → symbol_in_cooldown s now sym m = PyResult.ok false) ∧
    (assocGet? s.traded_symbols sym = some (LedgerEntry.flag true) →
      symbol_in_cooldown s now sym m =
        PyResult.exn ("TypeError: argument of type bool is not iterable")) ∧
    (assocGet? s.traded_symbols sym = some (LedgerEntry.record none) →
      symbol_in_cooldown s now sym m = PyResult.ok false) ∧
    (assocGet? s.traded_symbols sym = some (LedgerEntry.record (some TsString.unparsable)) →
      symbol_in_cooldown s now sym m = PyResult.ok false) := by
  unfold symbol_in_cooldown
  cases hget : assocGet? s.traded_symbols sym with
  | none =>
    exact ⟨by simp, fun _ => rfl, fun t ht _ => by simp at ht, fun hf => by simp at hf,
      fun hr => by simp at hr, fun hu => by simp at hu⟩
  | some entry =>
    cases entry with
    | flag b =>
      cases b with
      | true =>
        exact ⟨by simp, fun h => by simp at h, fun t ht _ => by simp at ht, fun _ => rfl,
          fun hr => by simp at hr, fun hu => by simp at hu⟩
      | false =>
        exact ⟨by simp, fun h => by simp at h, fun t ht _ => by simp at ht,
          fun hf => by simp at hf, fun hr => by simp at hr, fun hu => by simp at hu⟩
    | record o =>
      cases o with
      | none =>
        exact ⟨by simp, fun h => by simp at h, fun t ht _ => by simp at ht,
          fun hf => by simp at hf, fun _ => rfl, fun hu => by simp at hu⟩
      | some ts =>
        cases ts with
        | unparsable =>
          exact ⟨by simp, fun h => by simp at h, fun t ht _ => by simp at ht,
            fun hf => by simp at hf, fun hr => by simp at hr, fun _ => rfl⟩
        | parsed t0 =>
          refine ⟨⟨fun h => ?_, fun hx => ?_⟩, fun h => by simp at h,
            fun t ht hle => ?_, fun hf => by simp at hf,
            fun hr => by simp at hr, fun hu => by simp at hu⟩
          · have hd : decide (now - t0 < (m : ℚ) * 60) = true := PyResult.ok.inj h
            exact ⟨t0, rfl, of_decide_eq_true hd⟩
          · obtain ⟨t2, ht2, hlt⟩ := hx
            have he : t0 = t2 := by
              simpa using ht2
            rw [he]
            show PyResult.ok (decide (now - t2 < (m : ℚ) * 60)) = PyResult.ok true
            rw [decide_eq_true hlt]
          · have he : t0 = t := by
              simpa using ht
            rw [he]
            show PyResult.ok (decide (now - t < (m : ℚ) * 60)) = PyResult.ok false
            rw [decide_eq_false (not_lt.mpr hle)]

/-- C9 witness: a parsable loss timestamp 10 minutes old keeps the symbol in
a 60 minute cooldown, at exactly 60 minutes the symbol is eligible again, and
a dict entry without a loss timestamp is not in cooldown. -/
theorem symbol_in_cooldown_props_witness :
    symbol_in_cooldown ledgerLoss 600 "TSLA" 60 = PyResult.ok true ∧
    symbol_in_cooldown ledgerLoss 3600 "TSLA" 60 = PyResult.ok false ∧
    symbol_in_cooldown ledgerNoTs 0 "MSFT" 60 = PyResult.ok false :=
  ⟨(symbol_in_cooldown_props ledgerLoss 600 "TSLA" 60).1.mpr
    ⟨0, by simp [ledgerLoss, assocGet?], by norm_num⟩,
   (symbol_in_cooldown_props ledgerLoss 3600 "TSLA" 60).2.2.1 0
    (by simp [ledgerLoss, assocGet?]) (by norm_num),
   (symbol_in_cooldown_props ledgerNoTs 0 "MSFT" 60).2.2.2.2.1
    (by simp [ledgerNoTs, assocGet?])⟩

/-- C9 counterexample: on the boolean True ledger marker (written by
record_symbol_trade after a buy) the source raises TypeError, so it does not
return false even though no loss timestamp exists for the symbol. -/
theorem symbol_in_cooldown_flag_cex :
    symbol_in_cooldown ledgerTrue 0 "AAPL" 60 =
      PyResult.exn ("TypeError: argument of type bool is not iterable") ∧
    ¬ symbol_in_cooldown ledgerTrue 0 "AAPL" 60 = PyResult.ok false := by
  have h : symbol_in_cooldown ledgerTrue 0 "AAPL" 60 =
      PyResult.exn ("TypeError: argument of type bool is not iterable") := by
    unfold symbol_in_cooldown
    simp [ledgerTrue, assocGet?]
  refine ⟨h, ?_⟩
  rw [h]
  simp

/-- C2 (code bug): in a fresh trading_loop iteration the first candidate that
passes every pre-entry guard reaches the exposure-cap check, which reads the
local qty before its assignment; the loop raises UnboundLocalError instead of
degrading to a skip, contradicting the never-crash property. -/
theorem trading_loop_entry_unbound_qty :
    entriesLoop 100000 none [⟨false, false, false, true, some 50, true, true, false, 0⟩] =
      PyResult.exn ("UnboundLocalError: local variable qty referenced before assignment") :=
  rfl

/-- C3: manage_open_position fires at most one exit per call, in strict
priority order stop, then trailing, then trend-flip; in particular when the
fast EMA is below the slow EMA and neither the stop nor the (truthy) trailing
condition holds, it liquidates with reason trend_flip and returns the anchor
price, the last close as exit price, and the full (truncated, absolute)
position quantity. -/
theorem manage_open_position_priority (pos : Position) (bars : List Bar)
    (fp fa : Option ℚ) :
    (lastClose bars ≤ calculate_stop_price (anchorPrice pos fp) →
      manage_open_position (some pos) bars fp fa =
        some ("stop", anchorPrice pos fp, lastClose bars, ((pyTrunc pos.qty).natAbs : ℤ))) ∧
    (¬ lastClose bars ≤ calculate_stop_price (anchorPrice pos fp) →
      truthyLe (trailing_stop_price (anchorPrice pos fp) (highestSinceEntry bars fa))
          (lastClose bars) = true →
      manage_open_position (some pos) bars fp fa =
        some ("trail", anchorPrice pos fp, lastClose bars, ((pyTrunc pos.qty).natAbs : ℤ))) ∧
    (¬ lastClose bars ≤ calculate_stop_price (anchorPrice pos fp) →
      truthyLe (trailing_stop_price (anchorPrice pos fp) (highestSinceEntry bars fa))
          (lastClose bars) = false →
      ema21Last bars < ema50Last bars →
      manage_open_position (some pos) bars fp fa =
        some ("trend_flip", anchorPrice pos fp, lastClose bars,
          ((pyTrunc pos.qty).natAbs : ℤ))) ∧
    (¬ lastClose bars ≤ calculate_stop_price (anchorPrice pos fp) →
      truthyLe (trailing_stop_price (anchorPrice pos fp) (highestSinceEntry bars fa))
          (lastClose bars) = false →
      ¬ ema21Last bars < ema50Last bars →
      manage_open_position (some pos) bars fp fa = none) := by
  refine ⟨fun h1 => ?_, fun h1 h2 => ?_, fun h1 h2 h3 => ?_, fun h1 h2 h3 => ?_⟩ <;>
    (unfold manage_open_position; dsimp only)
  · rw [if_pos h1]
  · rw [if_neg h1, if_pos h2]
  · rw [if_neg h1, if_neg (by simp [h2]), if_pos h3]
  · rw [if_neg h1, if_neg (by simp [h2]), if_neg h3]

-- Concrete evaluation of the stop formula at entry 100 (spec scenario).
theorem calculate_stop_price_100 : calculate_stop_price 100 = 993 / 10 := by
  unfold calculate_stop_price
  rw [round4_eq_intCast_div (100 * (1 - STOP_LOSS_PCT)) 993000
    (by push_cast; norm_num [STOP_LOSS_PCT])]
  push_cast
  norm_num

/-- C3 witness: on a two-bar series whose fast EMA has dropped below the slow
EMA while the price sits above both the stop and the (inactive) trail, the
position is closed with reason trend_flip, anchor 100, exit at the last
close, full quantity. -/
theorem manage_open_position_priority_witness :
    manage_open_position (some (⟨10, 100⟩ : Position)) barsC3 none none =
      some ("trend_flip", anchorPrice ⟨10, 100⟩ none, lastClose barsC3,
        ((pyTrunc (Position.qty ⟨10, 100⟩)).natAbs : ℤ)) := by
  have ha : anchorPrice (⟨10, 100⟩ : Position) none = 100 := rfl
  have hl : lastClose barsC3 = 199 / 2 := by
    simp [lastClose, barsC3, List.getLastD]
  have hstop : ¬ lastClose barsC3 ≤ calculate_stop_price (anchorPrice ⟨10, 100⟩ none) := by
    rw [hl, ha, calculate_stop_price_100]
    norm_num
  have hhigh : highestSinceEntry barsC3 none = 100 := by
    norm_num [highestSinceEntry, barsC3, listMaxD, defaultBar]
  have htrail : truthyLe (trailing_stop_price (anchorPrice ⟨10, 100⟩ none)
      (highestSinceEntry barsC3 none)) (lastClose barsC3) = false := by
    rw [ha, hhigh]
    have hnone : trailing_stop_price 100 100 = none := by
      unfold trailing_stop_price
      rw [if_neg (by norm_num), if_pos (by norm_num [TRAIL_TRIGGER_PCT])]
    rw [hnone]
    rfl
  have hema : ema21Last barsC3 < ema50Last barsC3 := by
    have h21 : ema21Last barsC3 = 2199 / 22 := by
      norm_num [ema21Last, closesOf, barsC3, ewmLast, emaStep, alphaOf, EMA_FAST]
    have h50 : ema50Last barsC3 = 5099 / 51 := by
      norm_num [ema50Last, closesOf, barsC3, ewmLast, emaStep, alphaOf, EMA_SLOW]
    rw [h21, h50]
    norm_num
  exact (manage_open_position_priority ⟨10, 100⟩ barsC3 none none).2.2.1 hstop htrail hema

/-- C6: check_entry_signal returns a true signal only when all of the
following hold: at least EMA_SLOW + 2 bars, fast EMA above slow EMA and last
close above slow EMA, the previous bar's low within PULLBACK_TOLERANCE_PCT
relative distance of the previous bar's fast EMA, the current close strictly
above the previous bar's high, a supplied volume ratio of at least 1.2, and a
day return (defaulted to 0 when absent, as the source does) strictly above
the benchmark performance; and the returned entry price is the last close. -/
theorem check_entry_signal_necessary (bs : List Bar) (bp : ℚ) (rd vr : Option ℚ)
    (h : (check_entry_signal (some bs) bp rd vr).1 = true) :
    EMA_SLOW + 2 ≤ bs.length ∧
    ema50Last bs < ema21Last bs ∧
    ema50Last bs < (bs.getLastD defaultBar).close ∧
    |(bs.dropLast.getLastD defaultBar).low - ema21Last bs.dropLast| /
        ema21Last bs.dropLast ≤ PULLBACK_TOLERANCE_PCT ∧
    (bs.dropLast.getLastD defaultBar).high < (bs.getLastD defaultBar).close ∧
    (∃ v, vr = some v ∧ 12 / 10 ≤ v) ∧
    bp < rd.getD 0 ∧
    (check_entry_signal (some bs) bp rd vr).2.1 = some (bs.getLastD defaultBar).close := by
  unfold check_entry_signal at h ⊢
  dsimp only at h ⊢
  by_cases h1 : bs.length < EMA_SLOW + 2
  · rw [if_pos h1] at h
    simp at h
  rw [if_neg h1] at h ⊢
  by_cases h2 : ema21Last bs ≤ ema50Last bs ∨ (bs.getLastD defaultBar).close ≤ ema50Last bs
  · rw [if_pos h2] at h
    simp at h
  rw [if_neg h2] at h ⊢
  by_cases h3 : ¬ ((|(bs.dropLast.getLastD defaultBar).low - ema21Last bs.dropLast| /
      ema21Last bs.dropLast ≤ PULLBACK_TOLERANCE_PCT) ∧
      (bs.dropLast.getLastD defaultBar).high < (bs.getLastD defaultBar).close)
  · rw [if_pos h3] at h
    simp at h
  rw [if_neg h3] at h ⊢
  push_neg at h2
  rw [not_not] at h3
  cases vr with
  | none => simp at h
  | some v =>
    dsimp only at h ⊢
    by_cases h4 : v < 12 / 10
    · rw [if_pos h4] at h
      simp at h
    rw [if_neg h4] at h ⊢
    by_cases h5 : rd.getD 0 ≤ bp
    · rw [if_pos h5] at h
      simp at h
    rw [if_neg h5] at h ⊢
    exact ⟨not_lt.mp h1, h2.1, h2.2, h3.1, h3.2,
      ⟨v, rfl, not_lt.mp h4⟩, lt_of_not_le h5, rfl⟩

-- Concrete evaluation of the witness series bsW: 51 flat bars at 100 and a
-- breakout bar closing at 101.

theorem closesOf_bsW : closesOf bsW = List.replicate 51 (100 : ℚ) ++ [101] := by
  simp [closesOf, bsW, bW, bL]

theorem replicate51_ne_nil : List.replicate 51 (100 : ℚ) ≠ [] := by
  simp [List.replicate_eq_nil_iff]

theorem ewm_const_100 (a : ℚ) : ewmLast a (List.replicate 51 (100 : ℚ)) = 100 :=
  ewmLast_const a 100 (by unfold emaStep; ring) _
    (fun _ hx => List.eq_of_mem_replicate hx) replicate51_ne_nil

theorem ema21Last_bsW : ema21Last bsW = 1101 / 11 := by
  unfold ema21Last
  rw [closesOf_bsW, ewmLast_concat _ _ replicate51_ne_nil, ewm_const_100]
  unfold emaStep alphaOf EMA_FAST
  norm_num

theorem ema50Last_bsW : ema50Last bsW = 5102 / 51 := by
  unfold ema50Last
  rw [closesOf_bsW, ewmLast_concat _ _ replicate51_ne_nil, ewm_const_100]
  unfold emaStep alphaOf EMA_SLOW
  norm_num

theorem bsW_dropLast : bsW.dropLast = List.replicate 51 bW := by
  unfold bsW
  exact List.dropLast_concat

theorem p21_bsW : ema21Last bsW.dropLast = 100 := by
  rw [bsW_dropLast]
  unfold ema21Last
  rw [show closesOf (List.replicate 51 bW) = List.replicate 51 (100 : ℚ) by
    simp [closesOf, bW]]
  exact ewm_const_100 _

theorem bsW_last : bsW.getLastD defaultBar = bL := by
  unfold bsW
  exact List.getLastD_concat _ _ _

theorem bsW_prev : bsW.dropLast.getLastD defaultBar = bW := by
  rw [bsW_dropLast]
  rw [show (51 : ℕ) = 50 + 1 from rfl, List.replicate_succ']
  exact List.getLastD_concat _ _ _

theorem check_entry_signal_bsW :
    (check_entry_signal (some bsW) 0 (some 1) (some 2)).1 = true := by
  have hlen : bsW.length = 52 := by simp [bsW]
  have h1 : ¬ bsW.length < EMA_SLOW + 2 := by
    rw [hlen]
    unfold EMA_SLOW
    norm_num
  have h2 : ¬ (ema21Last bsW ≤ ema50Last bsW ∨
      (bsW.getLastD defaultBar).close ≤ ema50Last bsW) := by
    rw [ema21Last_bsW, ema50Last_bsW, bsW_last]
    simp only [bL]
    norm_num
  have h3 : ¬ ¬ ((|(bsW.dropLast.getLastD defaultBar).low - ema21Last bsW.dropLast| /
      ema21Last bsW.dropLast ≤ PULLBACK_TOLERANCE_PCT) ∧
      (bsW.dropLast.getLastD defaultBar).high < (bsW.getLastD defaultBar).close) := by
    rw [not_not, bsW_prev, bsW_last, p21_bsW]
    constructor
    · simp only [bW]
      norm_num [PULLBACK_TOLERANCE_PCT]
    · simp only [bW, bL]
      norm_num
  have h4 : ¬ (2 : ℚ) < 12 / 10 := by norm_num
  have h5 : ¬ ((some (1 : ℚ)).getD 0 ≤ (0 : ℚ)) := by
    rw [Option.getD_some]
    norm_num
  simp only [check_entry_signal]
  rw [if_neg h1, if_neg h2, if_neg h3]
  rw [if_neg h4, if_neg h5]

/-- C6 witness: the 52-bar flat-then-breakout series with volume ratio 2, day
return 1 and benchmark 0 produces a true signal, and all the necessary
conditions hold for it with entry price equal to the last close. -/
theorem check_entry_signal_necessary_witness :
    EMA_SLOW + 2 ≤ bsW.length ∧
    ema50Last bsW < ema21Last bsW ∧
    ema50Last bsW < (bsW.getLastD defaultBar).close ∧
    |(bsW.dropLast.getLastD defaultBar).low - ema21Last bsW.dropLast| /
        ema21Last bsW.dropLast ≤ PULLBACK_TOLERANCE_PCT ∧
    (bsW.dropLast.getLastD defaultBar).high < (bsW.getLastD defaultBar).close ∧
    (∃ v, (some (2 : ℚ) : Option ℚ) = some v ∧ 12 / 10 ≤ v) ∧
    (0 : ℚ) < (some (1 : ℚ) : Option ℚ).getD 0 ∧
    (check_entry_signal (some bsW) 0 (some 1) (some 2)).2.1 =
      some (bsW.getLastD defaultBar).close :=
  check_entry_signal_necessary bsW 0 (some 1) (some 2) check_entry_signal_bsW
